import Mathlib

/-!
Shallow embedding of the real-time WebSocket layer of the NexusPlay
matchmaking server (`server/routes.ts`): the connection registry
(`connectedClients` map), the heartbeat monitor, the broadcast dispatcher
(`broadcastToAll` / `broadcastToUsers`), the WebRTC signaling authorizer
inside the `message` handler, the handshake (`wss.on('connection')`), and
the `verifyClient` origin check.

Sockets are identified by their client id; a socket send is recorded as a
`(clientId, message)` pair.  JavaScript string truthiness (`undefined` and
`""` are falsy) is modelled explicitly.  Timestamps are naturals
(milliseconds, `Date.now()`).
-/

namespace NexusPlay

/-- `WebSocket.OPEN` readyState constant of the `ws` library. -/
def WS_OPEN : Nat := 1

/-- One entry of the `connectedClients` map:
`{ ws: WebSocket; userId?: string; lastPong?: number }`.
`readyState` is the current readyState of the referenced socket. -/
structure Client where
  readyState : Nat
  userId : Option String
  lastPong : Option Nat
deriving DecidableEq

/-- The `connectedClients` map, as an association list in insertion order
(JavaScript `Map` iteration order). -/
abbrev Registry := List (String × Client)

/-- JavaScript truthiness of an optional string: `undefined` and `""` are
falsy, every other string is truthy. -/
def truthyStr : Option String → Bool
  | none => false
  | some s => s != ""

/-- `connectedClients.get(cid)`. -/
def getClient (reg : Registry) (cid : String) : Option Client :=
  (reg.find? (fun p => p.1 == cid)).map (·.2)

/-- `connectedClients.set(cid, c)`: replaces in place when the key exists,
appends otherwise (JavaScript `Map.set` keeps the original insertion
position on overwrite). -/
def setClient : Registry → String → Client → Registry
  | [], cid, c => [(cid, c)]
  | (k, v) :: rest, cid, c =>
    if k == cid then (cid, c) :: rest else (k, v) :: setClient rest cid c

/-- `connectedClients.delete(cid)`.  A JavaScript `Map` has at most one
entry per key; on such registries dropping every entry with the key
coincides with deleting the single one. -/
def removeClient (reg : Registry) (cid : String) : Registry :=
  reg.filter (fun p => p.1 != cid)

/-- A match connection row as the storage collaborator returns it
(`storage.getUserConnections`). -/
structure MatchConnection where
  id : String
  requestId : String
  requesterId : String
  accepterId : String
  status : String
deriving DecidableEq

/-- Messages the WebSocket layer sends to a client. Opaque JSON payloads
(offer/answer/candidate, broadcast event bodies) are kept as optional
strings. -/
inductive ServerMsg where
  | pongReply
  | errorMsg (message : String)
  | relay (ty : String) (connectionId : String)
      (offer answer candidate : Option String) (fromUserId : String)
  | authSuccess (userId : String)
  | authFailed (message : String)
  | welcome (message : String)
deriving DecidableEq

/-- A successfully JSON-parsed inbound client message.  Fields the client
did not set are `none` (`undefined`). -/
structure InboundMsg where
  type : String
  targetUserId : Option String := none
  connectionId : Option String := none
  offer : Option String := none
  answer : Option String := none
  candidate : Option String := none
deriving DecidableEq

/-! ## Broadcast dispatcher (`broadcastToAll` / `broadcastToUsers`) -/

/-- `broadcastToAll(message)`: sends to every client with
`client.userId && client.ws.readyState === WebSocket.OPEN`. -/
def broadcastToAll {α : Type} (reg : Registry) (event : α) : List (String × α) :=
  (reg.filter (fun p =>
    match p.2.userId with
    | none => false
    | some u => u != "" && p.2.readyState == WS_OPEN)).map (fun p => (p.1, event))

/-- `broadcastToUsers(userIds, message)`: sends to every client with
`client.userId && userIds.includes(client.userId) && client.ws.readyState === WebSocket.OPEN`. -/
def broadcastToUsers {α : Type} (reg : Registry) (userIds : List String)
    (event : α) : List (String × α) :=
  (reg.filter (fun p =>
    match p.2.userId with
    | none => false
    | some u => u != "" && userIds.contains u && p.2.readyState == WS_OPEN)).map
    (fun p => (p.1, event))

/-! ## Inbound message handler (`ws.on('message')`) -/

/-- The sender's bound user id, if any: `connectedClients.get(cid)` followed
by the `!client?.userId` truthiness test. -/
def boundUser (reg : Registry) (cid : String) : Option String :=
  match getClient reg cid with
  | none => none
  | some c =>
    match c.userId with
    | none => none
    | some u => if u == "" then none else some u

/-- Effects of handling one inbound frame: socket sends and forcible
socket closes (`terminate` calls).  The message handler never closes a
socket, so its `closes` list is always empty. -/
structure MsgEffects where
  sends : List (String × ServerMsg)
  closes : List String
deriving DecidableEq

/-- The body of the `ws.on('message')` handler after a successful
`JSON.parse`, for one sender `cid`.  `store` is the storage collaborator
(`storage.getUserConnections`). -/
def handleParsed (store : String → List MatchConnection) (reg : Registry)
    (cid : String) (data : InboundMsg) : List (String × ServerMsg) :=
  if data.type == "ping" then
    [(cid, .pongReply)]
  else if data.type == "webrtc_offer" || data.type == "webrtc_answer" ||
      data.type == "webrtc_ice_candidate" then
    match boundUser reg cid with
    | none => [(cid, .errorMsg "Authentication required for WebRTC signaling")]
    | some u =>
      if !truthyStr data.targetUserId || !truthyStr data.connectionId then
        [(cid, .errorMsg "Target user ID and connection ID required for WebRTC signaling")]
      else
        let t := data.targetUserId.getD ""
        let connId := data.connectionId.getD ""
        match (store u).find? (fun c => c.id == connId) with
        | none => [(cid, .errorMsg "Connection not found or you are not authorized")]
        | some conn =>
          if !((conn.requesterId == u && conn.accepterId == t) ||
               (conn.accepterId == u && conn.requesterId == t)) then
            [(cid, .errorMsg "Target user is not a participant in this connection")]
          else if conn.status != "accepted" then
            [(cid, .errorMsg "Connection must be accepted before initiating voice chat")]
          else
            (reg.filter (fun p =>
                p.2.userId == some t && p.2.readyState == WS_OPEN)).map
              (fun p => (p.1, .relay data.type connId
                data.offer data.answer data.candidate u))
  else []

/-- The whole `ws.on('message')` handler: a frame that fails `JSON.parse`
(`raw = none`) is logged and dropped by the surrounding `try/catch`.  The
handler never mutates the registry and never closes a socket. -/
def handleMessage (store : String → List MatchConnection) (reg : Registry)
    (cid : String) (raw : Option InboundMsg) : MsgEffects × Registry :=
  match raw with
  | none => (⟨[], []⟩, reg)
  | some data => (⟨handleParsed store reg cid data, []⟩, reg)

/-! ## Heartbeat monitor (`setInterval` body) -/

/-- The staleness test `lastPong && now - lastPong > 40000` (JavaScript
number truthiness: a missing or zero `lastPong` is falsy). -/
def isStale (now : Nat) (c : Client) : Bool :=
  match c.lastPong with
  | none => false
  | some t => t != 0 && now - t > 40000

/-- One heartbeat tick: iterate the registry in insertion order; a stale
entry is terminated and deleted, every other entry stays and, when its
socket is open, is pinged.  Returns the new registry, the terminated
client ids, and the pinged client ids, each in visit order. -/
def heartbeatTick (now : Nat) : Registry → Registry × List String × List String
  | [] => ([], [], [])
  | (cid, c) :: rest =>
    let r := heartbeatTick now rest
    if isStale now c then
      (r.1, cid :: r.2.1, r.2.2)
    else
      ((cid, c) :: r.1, r.2.1,
        if c.readyState == WS_OPEN then cid :: r.2.2 else r.2.2)

/-! ## Handshake (`wss.on('connection')`) and pong handler -/

/-- Outcome of resolving the HTTP session for a new socket (the Session
Resolver collaborator): no cookie header at all, a parsed session whose
`passport.user.claims.sub` is the given optional string, or an error
thrown while parsing the session. -/
inductive SessionOutcome where
  | noCookie
  | resolved (sub : Option String)
  | errored
deriving DecidableEq

/-- The `wss.on('connection')` handler for a fresh client id `cid` whose
socket has readyState `sock`, given the session outcome: registers the
session (bound when `claims.sub` is truthy, anonymous otherwise) with
`lastPong = now`, sends the auth-status message and then the welcome
message, and never terminates the socket. -/
def handleConnection (reg : Registry) (cid : String) (sock : Nat)
    (outcome : SessionOutcome) (now : Nat) :
    Registry × List (String × ServerMsg) × List String :=
  let welcomeMsg : String × ServerMsg :=
    (cid, .welcome "Connected to GameMatch real-time updates")
  match outcome with
  | .resolved (some sub) =>
    if sub != "" then
      (setClient reg cid ⟨sock, some sub, some now⟩,
        [(cid, .authSuccess sub), welcomeMsg], [])
    else
      (setClient reg cid ⟨sock, none, some now⟩,
        [(cid, .authFailed "Authentication required for personalized updates"),
          welcomeMsg], [])
  | .resolved none =>
    (setClient reg cid ⟨sock, none, some now⟩,
      [(cid, .authFailed "Authentication required for personalized updates"),
        welcomeMsg], [])
  | .noCookie =>
    (setClient reg cid ⟨sock, none, some now⟩,
      [(cid, .authFailed "No session found - login required for personalized updates"),
        welcomeMsg], [])
  | .errored =>
    (setClient reg cid ⟨sock, none, some now⟩,
      [(cid, .authFailed "Authentication error"), welcomeMsg], [])

/-- The `ws.on('pong')` handler: refresh `lastPong` of the session with
this client id, if it is still registered. -/
def handlePong (reg : Registry) (cid : String) (now : Nat) : Registry :=
  reg.map (fun p =>
    if p.1 == cid then (p.1, { p.2 with lastPong := some now }) else p)

/-! ## Origin check (`verifyClient`) -/

/-- The `verifyClient` handshake guard.  `origin` and `host` are the raw
header values, `""` standing for an absent header (both are falsy in the
source's `!origin || !host` test).  `parseHost` is the WHATWG URL parser
collaborator: the `host` of `new URL(origin)`, or `none` when the
constructor throws on a malformed URL. -/
def verifyClient (parseHost : String → Option String)
    (origin host : String) : Bool :=
  if origin == "" || host == "" then false
  else
    match parseHost origin with
    | none => false
    | some originHost => originHost == host

/-! ## Reachable registry states -/

/-- Registry states reachable from server start through the four
operations that mutate `connectedClients`: the connection handshake, a
pong, a heartbeat tick, and the close/error removal. -/
inductive Reachable : Registry → Prop where
  | init : Reachable []
  | connect {reg} (cid : String) (sock : Nat) (outcome : SessionOutcome)
      (now : Nat) : Reachable reg →
      Reachable (handleConnection reg cid sock outcome now).1
  | pong {reg} (cid : String) (now : Nat) : Reachable reg →
      Reachable (handlePong reg cid now)
  | tick {reg} (now : Nat) : Reachable reg →
      Reachable (heartbeatTick now reg).1
  | close {reg} (cid : String) : Reachable reg →
      Reachable (removeClient reg cid)

/-! ## Observation predicates and concrete fixtures -/

/-- The effect list consists of exactly one `error` send, addressed to the
given client, and nothing else. -/
def isErrorReplyTo (cid : String) (eff : MsgEffects) : Bool :=
  match eff.sends with
  | [(c, ServerMsg.errorMsg _)] => c == cid && eff.closes == []
  | _ => false

/-- The send list is exactly an `auth_failed` message followed by the
welcome message, both to the given client. -/
def isAuthFailedThenWelcome (cid : String)
    (sends : List (String × ServerMsg)) : Bool :=
  match sends with
  | [(c, ServerMsg.authFailed _), (c', ServerMsg.welcome _)] =>
    c == cid && c' == cid
  | _ => false

/-- Concrete accepted connection between `u1` and `u2`. -/
def connW : MatchConnection :=
  ⟨"c1", "r1", "u1", "u2", "accepted"⟩

/-- Concrete storage collaborator: `u1` has exactly the connection
`connW`. -/
def storeW : String → List MatchConnection := fun u =>
  if u == "u1" then [connW] else []

/-- Concrete registry: bound sessions for `u1` and `u2`, one anonymous
session, all open. -/
def regW : Registry :=
  [("s1", ⟨1, some "u1", some 100⟩), ("s2", ⟨1, some "u2", some 100⟩),
   ("s3", ⟨1, none, some 100⟩)]

/-- Concrete inbound offer from `u1` targeting `u2` on connection `c1`. -/
def dataW : InboundMsg :=
  ⟨"webrtc_offer", some "u2", some "c1", some "OFF", none, none⟩

/-- Concrete registry for the heartbeat witness: one fresh session and one
session 49000 ms silent at tick time 50000. -/
def regW5 : Registry :=
  [("a", ⟨1, some "u1", some 48000⟩), ("b", ⟨2, none, some 5000⟩)]

/-! ## Helper lemmas -/

theorem heartbeatTick_eq (now : Nat) (reg : Registry) :
    heartbeatTick now reg =
      (reg.filter (fun p => !isStale now p.2),
       (reg.filter (fun p => isStale now p.2)).map (·.1),
       (reg.filter (fun p => !isStale now p.2 &&
          p.2.readyState == WS_OPEN)).map (·.1)) := by
  induction reg with
  | nil => rfl
  | cons p rest ih =>
    obtain ⟨cid, c⟩ := p
    by_cases hs : isStale now c = true
    · simp [heartbeatTick, hs, ih, List.filter_cons]
    · have hs' : isStale now c = false := by simpa using hs
      by_cases ho : (c.readyState == WS_OPEN) = true
      · simp [heartbeatTick, hs', ho, ih, List.filter_cons]
      · have ho' : (c.readyState == WS_OPEN) = false := by simpa using ho
        simp [heartbeatTick, hs', ho', ih, List.filter_cons]

theorem getClient_setClient (reg : Registry) (cid : String) (c : Client) :
    getClient (setClient reg cid c) cid = some c := by
  induction reg with
  | nil => simp [setClient, getClient]
  | cons p rest ih =>
    obtain ⟨k, v⟩ := p
    by_cases hk : k = cid
    · subst hk; simp [setClient, getClient]
    · have hkc : (k == cid) = false := by simpa using hk
      simpa [setClient, getClient, hkc, List.find?_cons] using ih

theorem mem_setClient {reg : Registry} {cid : String} {c : Client}
    {p : String × Client} (h : p ∈ setClient reg cid c) :
    p ∈ reg ∨ p = (cid, c) := by
  induction reg with
  | nil => simpa [setClient] using h
  | cons q rest ih =>
    obtain ⟨k, v⟩ := q
    by_cases hk : (k == cid) = true
    · rw [setClient, if_pos hk] at h
      rcases List.mem_cons.mp h with h | h
      · exact Or.inr h
      · exact Or.inl (List.mem_cons_of_mem _ h)
    · rw [setClient, if_neg hk] at h
      rcases List.mem_cons.mp h with h | h
      · exact Or.inl (h ▸ List.mem_cons_self _ _)
      · rcases ih h with h | h
        · exact Or.inl (List.mem_cons_of_mem _ h)
        · exact Or.inr h

theorem mem_keys_setClient {reg : Registry} {cid k : String} {c : Client} :
    k ∈ (setClient reg cid c).map (·.1) ↔ k ∈ reg.map (·.1) ∨ k = cid := by
  induction reg with
  | nil => simp [setClient]
  | cons q rest ih =>
    obtain ⟨k', v⟩ := q
    by_cases hk : k' = cid
    · subst hk
      have hset : setClient ((k', v) :: rest) k' c = (k', c) :: rest := by
        simp [setClient]
      rw [hset]
      simp only [List.map_cons, List.mem_cons]
      tauto
    · have hkc : (k' == cid) = false := by simpa using hk
      have hset : setClient ((k', v) :: rest) cid c =
          (k', v) :: setClient rest cid c := by
        simp [setClient, hkc]
      rw [hset]
      simp only [List.map_cons, List.mem_cons, ih]
      tauto

theorem nodupKeys_setClient {reg : Registry} (cid : String) (c : Client)
    (h : (reg.map (·.1)).Nodup) :
    ((setClient reg cid c).map (·.1)).Nodup := by
  induction reg with
  | nil => simp [setClient]
  | cons q rest ih =>
    obtain ⟨k, v⟩ := q
    simp only [List.map_cons, List.nodup_cons] at h
    by_cases hk : k = cid
    · subst hk
      have hset : setClient ((k, v) :: rest) k c = (k, c) :: rest := by
        simp [setClient]
      rw [hset]
      simp only [List.map_cons, List.nodup_cons]
      exact h
    · have hkc : (k == cid) = false := by simpa using hk
      have hset : setClient ((k, v) :: rest) cid c =
          (k, v) :: setClient rest cid c := by
        simp [setClient, hkc]
      rw [hset]
      simp only [List.map_cons, List.nodup_cons]
      refine ⟨?_, ih h.2⟩
      intro hmem
      rcases mem_keys_setClient.mp hmem with hmem | hmem
      · exact h.1 hmem
      · exact hk hmem

theorem keys_handlePong (reg : Registry) (cid : String) (now : Nat) :
    (handlePong reg cid now).map (·.1) = reg.map (·.1) := by
  simp only [handlePong, List.map_map]
  refine List.map_congr_left ?_
  intro p _
  show (if (p.1 == cid) = true then
      (p.1, { p.2 with lastPong := some now }) else p).1 = p.1
  split <;> rfl

theorem getClient_handlePong (reg : Registry) (cid : String) (now : Nat) :
    getClient (handlePong reg cid now) cid =
      (getClient reg cid).map (fun c => { c with lastPong := some now }) := by
  induction reg with
  | nil => rfl
  | cons p rest ih =>
    obtain ⟨k, v⟩ := p
    by_cases hk : (k == cid) = true
    · simp only [handlePong, List.map_cons, if_pos hk]
      simp [getClient, List.find?_cons, hk]
    · have hk2 : (k == cid) = false := by simpa using hk
      simp only [handlePong, List.map_cons, if_neg hk]
      simpa [getClient, handlePong, List.find?_cons, hk2] using ih

theorem inv_setClient {reg : Registry} (cid : String) (c : Client)
    (hn : (reg.map (·.1)).Nodup) (ha : ∀ p ∈ reg, p.2.lastPong.isSome)
    (hc : c.lastPong.isSome) :
    ((setClient reg cid c).map (·.1)).Nodup ∧
      ∀ p ∈ setClient reg cid c, p.2.lastPong.isSome := by
  refine ⟨nodupKeys_setClient cid c hn, ?_⟩
  intro p hp
  rcases mem_setClient hp with hp | hp
  · exact ha p hp
  · rw [hp]; exact hc

theorem reachable_inv {reg : Registry} (h : Reachable reg) :
    (reg.map (·.1)).Nodup ∧ ∀ p ∈ reg, p.2.lastPong.isSome := by
  induction h with
  | init => simp
  | connect cid sock outcome now _ ih =>
    rcases outcome with _ | sub | _
    · exact inv_setClient cid _ ih.1 ih.2 rfl
    · rcases sub with _ | s
      · exact inv_setClient cid _ ih.1 ih.2 rfl
      · simp only [handleConnection]
        by_cases hs : (s != "") = true
        · rw [if_pos hs]
          exact inv_setClient cid _ ih.1 ih.2 rfl
        · rw [if_neg hs]
          exact inv_setClient cid _ ih.1 ih.2 rfl
    · exact inv_setClient cid _ ih.1 ih.2 rfl
  | pong cid now _ ih =>
    refine ⟨by rw [keys_handlePong]; exact ih.1, ?_⟩
    intro p hp
    rcases List.mem_map.mp hp with ⟨q, hq, hqp⟩
    by_cases hk : (q.1 == cid) = true
    · rw [if_pos hk] at hqp
      rw [← hqp]; rfl
    · rw [if_neg hk] at hqp
      rw [← hqp]; exact ih.2 q hq
  | tick now _ ih =>
    rw [heartbeatTick_eq]
    refine ⟨List.Nodup.sublist (List.Sublist.map _ (List.filter_sublist _)) ih.1, ?_⟩
    intro p hp
    exact ih.2 p (List.mem_of_mem_filter hp)
  | close cid _ ih =>
    refine ⟨List.Nodup.sublist (List.Sublist.map _ (List.filter_sublist _)) ih.1, ?_⟩
    intro p hp
    exact ih.2 p (List.mem_of_mem_filter hp)

theorem truthyStr_eq_true {o : Option String} :
    truthyStr o = true ↔ ∃ s, o = some s ∧ s ≠ "" := by
  cases o <;> simp [truthyStr]

/-! ## Claim theorems: broadcasts -/

/-- C3. `toAll` broadcast: `broadcastToAll` sends the event to exactly the
registered sessions that have a bound (truthy) user id and whose socket is
in the open state; anonymous sessions and sessions whose socket is not
open receive nothing. -/
theorem c3_toAll_exact {α : Type} (reg : Registry) (event : α)
    (cid : String) (e : α) :
    (cid, e) ∈ broadcastToAll reg event ↔
      e = event ∧ ∃ c : Client, (cid, c) ∈ reg ∧
        (∃ u, c.userId = some u ∧ u ≠ "") ∧ c.readyState = WS_OPEN := by
  constructor
  · intro h
    rcases List.mem_map.mp h with ⟨p, hp, hpe⟩
    rcases List.mem_filter.mp hp with ⟨hmem, hcond⟩
    obtain ⟨hcid, he⟩ : p.1 = cid ∧ event = e := Prod.mk.injEq .. ▸ hpe
    refine ⟨he.symm, p.2, by rwa [← hcid, Prod.mk.eta], ?_⟩
    rcases hu : p.2.userId with _ | u
    · rw [hu] at hcond; simp at hcond
    · rw [hu] at hcond
      simp only [Bool.and_eq_true, bne_iff_ne, ne_eq, beq_iff_eq] at hcond
      exact ⟨⟨u, rfl, hcond.1⟩, hcond.2⟩
  · rintro ⟨he, c, hmem, ⟨u, hu, hune⟩, hopen⟩
    refine List.mem_map.mpr ⟨(cid, c), List.mem_filter.mpr ⟨hmem, ?_⟩, by rw [he]⟩
    simp [hu, hopen, hune]

/-- C4. `toUsers` broadcast: `broadcastToUsers` sends the event to exactly
the registered sessions whose bound user id is a member of `userIds` and
whose socket is in the open state; every other session receives nothing. -/
theorem c4_toUsers_exact {α : Type} (reg : Registry) (userIds : List String)
    (event : α) (cid : String) (e : α) :
    (cid, e) ∈ broadcastToUsers reg userIds event ↔
      e = event ∧ ∃ c : Client, (cid, c) ∈ reg ∧
        (∃ u, c.userId = some u ∧ u ≠ "" ∧ u ∈ userIds) ∧
        c.readyState = WS_OPEN := by
  constructor
  · intro h
    rcases List.mem_map.mp h with ⟨p, hp, hpe⟩
    rcases List.mem_filter.mp hp with ⟨hmem, hcond⟩
    obtain ⟨hcid, he⟩ : p.1 = cid ∧ event = e := Prod.mk.injEq .. ▸ hpe
    refine ⟨he.symm, p.2, by rwa [← hcid, Prod.mk.eta], ?_⟩
    rcases hu : p.2.userId with _ | u
    · rw [hu] at hcond; simp at hcond
    · rw [hu] at hcond
      simp only [Bool.and_eq_true, bne_iff_ne, ne_eq, beq_iff_eq,
        List.contains, List.elem_iff] at hcond
      exact ⟨⟨u, rfl, hcond.1.1, hcond.1.2⟩, hcond.2⟩
  · rintro ⟨he, c, hmem, ⟨u, hu, hune, humem⟩, hopen⟩
    refine List.mem_map.mpr ⟨(cid, c), List.mem_filter.mpr ⟨hmem, ?_⟩, by rw [he]⟩
    simp [hu, hopen, hune, List.contains, List.elem_iff, humem]

/-- C7. Idempotent removal: deleting a session id twice equals deleting it
once; deleting an id that is not a key of the registry changes nothing;
and deletion never touches an entry with a different key. -/
theorem c7_remove_idempotent (reg : Registry) (cid : String) :
    removeClient (removeClient reg cid) cid = removeClient reg cid ∧
    (getClient reg cid = none → removeClient reg cid = reg) ∧
    (∀ p ∈ reg, p.1 ≠ cid → p ∈ removeClient reg cid) := by
  refine ⟨?_, ?_, ?_⟩
  · simp [removeClient, List.filter_filter]
  · intro hnone
    have hfind : reg.find? (fun q => q.1 == cid) = none := by
      simpa [getClient] using hnone
    have hall := List.find?_eq_none.mp hfind
    refine List.filter_eq_self.mpr ?_
    intro p hp
    simpa using hall p hp
  · intro p hp hne
    exact List.mem_filter.mpr ⟨hp, by simpa using hne⟩

/-- C1. Signaling relay happy path: an inbound `webrtc_offer` /
`webrtc_answer` / `webrtc_ice_candidate` from a session bound to `U`,
targeting `T` on connection id `C`, where the sender's stored connection
with id `C` has participants exactly `U` and `T` and status `accepted`,
is relayed — with the original kind and payload and `fromUserId = U` — to
exactly the registered sessions bound to `T` whose socket is open, and no
error reply is sent to the sender. -/
theorem c1_signaling_relay_happy (store : String → List MatchConnection)
    (reg : Registry) (cid U T C : String) (data : InboundMsg)
    (conn : MatchConnection)
    (hU : boundUser reg cid = some U)
    (hty : data.type = "webrtc_offer" ∨ data.type = "webrtc_answer" ∨
      data.type = "webrtc_ice_candidate")
    (ht : data.targetUserId = some T) (hT : T ≠ "")
    (hc : data.connectionId = some C) (hC : C ≠ "")
    (hfind : (store U).find? (fun c => c.id == C) = some conn)
    (hpart : (conn.requesterId = U ∧ conn.accepterId = T) ∨
             (conn.accepterId = U ∧ conn.requesterId = T))
    (hstat : conn.status = "accepted") :
    handleMessage store reg cid (some data) =
      (⟨(reg.filter (fun p =>
            p.2.userId == some T && p.2.readyState == WS_OPEN)).map
          (fun p => (p.1, ServerMsg.relay data.type C
            data.offer data.answer data.candidate U)),
        []⟩, reg) := by
  have hping : (data.type == "ping") = false := by
    rcases hty with h | h | h <;> simp [h]
  have hsig : (data.type == "webrtc_offer" || data.type == "webrtc_answer" ||
      data.type == "webrtc_ice_candidate") = true := by
    rcases hty with h | h | h <;> simp [h]
  have hval : ((conn.requesterId == U && conn.accepterId == T) ||
      (conn.accepterId == U && conn.requesterId == T)) = true := by
    rcases hpart with ⟨h1, h2⟩ | ⟨h1, h2⟩ <;> simp [h1, h2]
  simp [handleMessage, handleParsed, hping, hsig, hU, ht, hc, truthyStr,
    hT, hC, hfind, hval, hstat]

/-- C1 witness: in the concrete fixture, `u1`'s offer on the accepted
connection `c1` is relayed to `u2`'s open session. -/
theorem c1_witness :
    handleMessage storeW regW "s1" (some dataW) =
      (⟨(regW.filter (fun p =>
            p.2.userId == some "u2" && p.2.readyState == WS_OPEN)).map
          (fun p => (p.1, ServerMsg.relay dataW.type "c1"
            dataW.offer dataW.answer dataW.candidate "u1")),
        []⟩, regW) :=
  c1_signaling_relay_happy storeW regW "s1" "u1" "u2" "c1" dataW connW
    (by decide) (Or.inl rfl) rfl (by decide) rfl (by decide) (by decide)
    (Or.inl ⟨rfl, rfl⟩) rfl

/-- C2. Signaling rejection paths: an inbound signaling message from an
unauthenticated session, or lacking a truthy target user id or connection
id, or whose connection id is not found among the sender's stored
connections, or whose target is not the other participant, or whose
connection is not `accepted`, yields exactly one `error` send back to the
sender, relays nothing to any other session, closes no socket, and leaves
the registry unchanged. -/
theorem c2_signaling_rejections (store : String → List MatchConnection)
    (reg : Registry) (cid : String) (data : InboundMsg)
    (hty : data.type = "webrtc_offer" ∨ data.type = "webrtc_answer" ∨
      data.type = "webrtc_ice_candidate")
    (hrej : boundUser reg cid = none
      ∨ truthyStr data.targetUserId = false
      ∨ truthyStr data.connectionId = false
      ∨ (∃ u, boundUser reg cid = some u ∧
          truthyStr data.targetUserId = true ∧
          truthyStr data.connectionId = true ∧
          (store u).find? (fun c => c.id == data.connectionId.getD "") = none)
      ∨ (∃ u conn, boundUser reg cid = some u ∧
          truthyStr data.targetUserId = true ∧
          truthyStr data.connectionId = true ∧
          (store u).find? (fun c => c.id == data.connectionId.getD "") =
            some conn ∧
          ¬((conn.requesterId = u ∧
              conn.accepterId = data.targetUserId.getD "") ∨
            (conn.accepterId = u ∧
              conn.requesterId = data.targetUserId.getD "")))
      ∨ (∃ u conn, boundUser reg cid = some u ∧
          truthyStr data.targetUserId = true ∧
          truthyStr data.connectionId = true ∧
          (store u).find? (fun c => c.id == data.connectionId.getD "") =
            some conn ∧
          conn.status ≠ "accepted")) :
    isErrorReplyTo cid (handleMessage store reg cid (some data)).1 = true ∧
    (handleMessage store reg cid (some data)).2 = reg := by
  have hping : (data.type == "ping") = false := by
    rcases hty with h | h | h <;> simp [h]
  have hsig : (data.type == "webrtc_offer" || data.type == "webrtc_answer" ||
      data.type == "webrtc_ice_candidate") = true := by
    rcases hty with h | h | h <;> simp [h]
  refine ⟨?_, rfl⟩
  rcases hrej with h | h | h | ⟨u, hu, ht1, hc1, hfind⟩ |
    ⟨u, conn, hu, ht1, hc1, hfind, hnval⟩ | ⟨u, conn, hu, ht1, hc1, hfind, hstat⟩
  · simp [handleMessage, handleParsed, hping, hsig, h, isErrorReplyTo]
  · cases hb : boundUser reg cid with
    | none => simp [handleMessage, handleParsed, hping, hsig, hb, isErrorReplyTo]
    | some u => simp [handleMessage, handleParsed, hping, hsig, hb, h, isErrorReplyTo]
  · cases hb : boundUser reg cid with
    | none => simp [handleMessage, handleParsed, hping, hsig, hb, isErrorReplyTo]
    | some u => simp [handleMessage, handleParsed, hping, hsig, hb, h, isErrorReplyTo]
  · simp [handleMessage, handleParsed, hping, hsig, hu, ht1, hc1, hfind,
      isErrorReplyTo]
  · have hvalf : ((conn.requesterId == u &&
        conn.accepterId == data.targetUserId.getD "") ||
        (conn.accepterId == u &&
          conn.requesterId == data.targetUserId.getD "")) = false := by
      cases hbv : ((conn.requesterId == u &&
          conn.accepterId == data.targetUserId.getD "") ||
          (conn.accepterId == u &&
            conn.requesterId == data.targetUserId.getD ""))
      · rfl
      · exact absurd (by simpa using hbv) hnval
    simp [handleMessage, handleParsed, hping, hsig, hu, ht1, hc1, hfind,
      hvalf, isErrorReplyTo]
  · by_cases hv : ((conn.requesterId == u &&
        conn.accepterId == data.targetUserId.getD "") ||
        (conn.accepterId == u &&
          conn.requesterId == data.targetUserId.getD "")) = true
    · have hstat' : (conn.status != "accepted") = true := by simpa using hstat
      simp [handleMessage, handleParsed, hping, hsig, hu, ht1, hc1, hfind,
        hv, hstat', isErrorReplyTo]
    · have hvf : ((conn.requesterId == u &&
          conn.accepterId == data.targetUserId.getD "") ||
          (conn.accepterId == u &&
            conn.requesterId == data.targetUserId.getD "")) = false := by
        simpa using hv
      simp [handleMessage, handleParsed, hping, hsig, hu, ht1, hc1, hfind,
        hvf, isErrorReplyTo]

/-- C2 witness: the anonymous session `s3` sending an offer gets exactly
an error reply and nothing is relayed. -/
theorem c2_witness :
    isErrorReplyTo "s3" (handleMessage storeW regW "s3" (some dataW)).1 = true ∧
    (handleMessage storeW regW "s3" (some dataW)).2 = regW :=
  c2_signaling_rejections storeW regW "s3" dataW (Or.inl rfl)
    (Or.inl (by decide))

/-- C5. Heartbeat tick: one tick removes and terminates exactly the
sessions whose `lastPong` is stale, pings exactly the open non-stale
sessions, keeps every non-stale session registered, visits every entry
exactly once (the result is a partition of the input list by the
staleness test), and — on states where every `lastPong` is a positive
timestamp, as `Date.now()` always is — the staleness test is exactly
`now - lastPong > 40000`. -/
theorem c5_heartbeat_tick (now : Nat) (reg : Registry)
    (hpos : ∀ p ∈ reg, ∃ t, p.2.lastPong = some t ∧ 0 < t) :
    (heartbeatTick now reg).1 = reg.filter (fun p => !isStale now p.2) ∧
    (heartbeatTick now reg).2.1 =
      (reg.filter (fun p => isStale now p.2)).map (·.1) ∧
    (heartbeatTick now reg).2.2 =
      (reg.filter (fun p => !isStale now p.2 &&
        p.2.readyState == WS_OPEN)).map (·.1) ∧
    ∀ p ∈ reg, ∀ t, p.2.lastPong = some t →
      (isStale now p.2 = true ↔ 40000 < now - t) := by
  refine ⟨by rw [heartbeatTick_eq], by rw [heartbeatTick_eq],
    by rw [heartbeatTick_eq], ?_⟩
  intro p hp t hpt
  obtain ⟨t', hpt', ht'⟩ := hpos p hp
  rw [hpt] at hpt'
  obtain rfl : t = t' := by injection hpt'
  have htne : (t != 0) = true := by
    simp only [bne_iff_ne, ne_eq]
    omega
  simp [isStale, hpt, htne]

/-- C5 witness: at tick time 50000 the 45000 ms silent session `b` is
evicted and terminated while the fresh open session `a` stays and is
pinged. -/
theorem c5_witness :
    (heartbeatTick 50000 regW5).1 =
      regW5.filter (fun p => !isStale 50000 p.2) ∧
    (heartbeatTick 50000 regW5).2.1 =
      (regW5.filter (fun p => isStale 50000 p.2)).map (·.1) :=
  ⟨(c5_heartbeat_tick 50000 regW5 (by
      intro p hp
      simp only [regW5, List.mem_cons, List.not_mem_nil, or_false] at hp
      rcases hp with rfl | rfl
      · exact ⟨48000, rfl, by norm_num⟩
      · exact ⟨5000, rfl, by norm_num⟩)).1,
   (c5_heartbeat_tick 50000 regW5 (by
      intro p hp
      simp only [regW5, List.mem_cons, List.not_mem_nil, or_false] at hp
      rcases hp with rfl | rfl
      · exact ⟨48000, rfl, by norm_num⟩
      · exact ⟨5000, rfl, by norm_num⟩)).2.1⟩

/-- C6. Origin check at handshake: `verifyClient` returns `true` exactly
when both the Origin and Host headers are present (non-empty), the Origin
parses as a URL, and the parsed origin's host equals the Host header; in
every other case — either header absent or the origin malformed — it
returns `false`. -/
theorem c6_origin_check (parseHost : String → Option String)
    (origin host : String) :
    verifyClient parseHost origin host = true ↔
      origin ≠ "" ∧ host ≠ "" ∧ parseHost origin = some host := by
  unfold verifyClient
  by_cases ho : origin = ""
  · simp [ho]
  · by_cases hh : host = ""
    · simp [ho, hh]
    · have hcond : (origin == "" || host == "") = false := by
        simp [ho, hh]
      rw [hcond]
      cases hp : parseHost origin with
      | none => simp [hp]
      | some oh => simp [hp, ho, hh]

/-- C9. Malformed inbound message: a frame that fails JSON parsing
produces no reply to anyone, closes no socket, and leaves the registry
unchanged. -/
theorem c9_malformed_dropped (store : String → List MatchConnection)
    (reg : Registry) (cid : String) :
    handleMessage store reg cid none = (⟨[], []⟩, reg) := rfl

/-- C7 witness: removing the absent id `zz` twice equals removing it
once, and removing it once already changes nothing. -/
theorem c7_witness :
    removeClient (removeClient regW "zz") "zz" = removeClient regW "zz" ∧
    removeClient regW "zz" = regW :=
  ⟨(c7_remove_idempotent regW "zz").1,
   (c7_remove_idempotent regW "zz").2.1 (by decide)⟩

/-- C8. Authentication failure is non-fatal: on every handshake path that
does not yield an authenticated user id (no cookie, session without a
truthy `claims.sub`, or an error during session parsing) the socket is
still registered as an anonymous session with a fresh liveness timestamp,
the client is sent `auth_failed` followed by the welcome message, and no
socket is terminated. -/
theorem c8_auth_failure_nonfatal (reg : Registry) (cid : String)
    (sock now : Nat) (outcome : SessionOutcome)
    (hano : outcome = SessionOutcome.noCookie ∨
      outcome = SessionOutcome.errored ∨
      outcome = SessionOutcome.resolved none ∨
      outcome = SessionOutcome.resolved (some "")) :
    getClient (handleConnection reg cid sock outcome now).1 cid =
      some ⟨sock, none, some now⟩ ∧
    isAuthFailedThenWelcome cid
      (handleConnection reg cid sock outcome now).2.1 = true ∧
    (handleConnection reg cid sock outcome now).2.2 = [] := by
  rcases hano with rfl | rfl | rfl | rfl
  · exact ⟨getClient_setClient reg cid _,
      by simp [handleConnection, isAuthFailedThenWelcome], rfl⟩
  · exact ⟨getClient_setClient reg cid _,
      by simp [handleConnection, isAuthFailedThenWelcome], rfl⟩
  · exact ⟨getClient_setClient reg cid _,
      by simp [handleConnection, isAuthFailedThenWelcome], rfl⟩
  · have hs : ((("" : String) != "") = true) = False := by simp
    simp only [handleConnection, hs, if_false]
    exact ⟨getClient_setClient reg cid _,
      by simp [isAuthFailedThenWelcome], trivial⟩

/-- C8 witness: a cookieless handshake registers an anonymous session with
`lastPong` set and sends `auth_failed` then `welcome`. -/
theorem c8_witness :
    getClient (handleConnection [] "a" 1 SessionOutcome.noCookie 5).1 "a" =
      some ⟨1, none, some 5⟩ ∧
    isAuthFailedThenWelcome "a"
      (handleConnection [] "a" 1 SessionOutcome.noCookie 5).2.1 = true ∧
    (handleConnection [] "a" 1 SessionOutcome.noCookie 5).2.2 = [] :=
  c8_auth_failure_nonfatal [] "a" 1 5 SessionOutcome.noCookie (Or.inl rfl)

/-- C10. Registry liveness invariant: in every reachable registry state
every entry has a defined `lastPong`; registration on every handshake
path sets the new entry's `lastPong` to the current time; a pong
refreshes it to the current time; and an entry acknowledged within the
last 40000 ms survives a heartbeat tick and is not terminated by it. -/
theorem c10_registry_liveness (reg : Registry) (hreach : Reachable reg) :
    (∀ p ∈ reg, p.2.lastPong.isSome) ∧
    (∀ (cid : String) (sock : Nat) (outcome : SessionOutcome) (now : Nat),
      ∃ c, getClient (handleConnection reg cid sock outcome now).1 cid =
        some c ∧ c.lastPong = some now) ∧
    (∀ (cid : String) (now : Nat),
      getClient (handlePong reg cid now) cid =
        (getClient reg cid).map (fun c => { c with lastPong := some now })) ∧
    (∀ (now : Nat) (p : String × Client) (t : Nat), p ∈ reg →
      p.2.lastPong = some t → now - t ≤ 40000 →
      p ∈ (heartbeatTick now reg).1 ∧
      p.1 ∉ (heartbeatTick now reg).2.1) := by
  obtain ⟨hnodup, hack⟩ := reachable_inv hreach
  refine ⟨hack, ?_, ?_, ?_⟩
  · intro cid sock outcome now
    rcases outcome with _ | sub | _
    · exact ⟨_, getClient_setClient reg cid _, rfl⟩
    · rcases sub with _ | s
      · exact ⟨_, getClient_setClient reg cid _, rfl⟩
      · by_cases hs : (s != "") = true
        · refine ⟨⟨sock, some s, some now⟩, ?_, rfl⟩
          simp only [handleConnection, if_pos hs]
          exact getClient_setClient reg cid _
        · refine ⟨⟨sock, none, some now⟩, ?_, rfl⟩
          simp only [handleConnection, if_neg hs]
          exact getClient_setClient reg cid _
    · exact ⟨_, getClient_setClient reg cid _, rfl⟩
  · intro cid now
    exact getClient_handlePong reg cid now
  · intro now p t hp hpt hle
    have hns : isStale now p.2 = false := by
      have hnot : ¬(40000 < now - t) := by omega
      simp [isStale, hpt, hnot]
    constructor
    · rw [heartbeatTick_eq]
      exact List.mem_filter.mpr ⟨hp, by simp [hns]⟩
    · rw [heartbeatTick_eq]
      intro hmem
      simp only [List.mem_map] at hmem
      obtain ⟨q, hq, hq1⟩ := hmem
      have hqreg : q ∈ reg := List.mem_of_mem_filter hq
      have hstaleq : isStale now q.2 = true := (List.mem_filter.mp hq).2
      have hqp : q = p :=
        List.inj_on_of_nodup_map hnodup hqreg hp (by simpa using hq1)
      rw [hqp, hns] at hstaleq
      exact Bool.false_ne_true hstaleq

/-- C10 witness: a session registered at time 5 survives (is neither
removed nor terminated by) a heartbeat tick at time 9. -/
theorem c10_witness :
    ("a", Client.mk 1 none (some 5)) ∈
      (heartbeatTick 9
        (handleConnection [] "a" 1 SessionOutcome.noCookie 5).1).1 :=
  ((c10_registry_liveness _
      (Reachable.connect "a" 1 SessionOutcome.noCookie 5
        Reachable.init)).2.2.2
    9 ("a", ⟨1, none, some 5⟩) 5 (by decide) rfl (by decide)).1

end NexusPlay
